import Mathlib

/-!
Verification of the register-driven acquisition-and-publish pipeline
(config_loader.py, modbus_client.py, app.py, mqtt_client.py).

The Python code is shallowly embedded: Python dicts are modelled as
lookup functions built by successive overwriting insertion (matching
dict-comprehension / assignment semantics), 16-bit device words are `Nat`,
processed register values are `Int` (Python ints), and dynamically typed
values flowing through the publish pipeline are the inductive `Val`.
-/

namespace VFlow

/-- Dynamically typed Python values occurring in the pipeline:
`None`, ints, floats (modelled exactly as rationals), the non-numeric
strings the pipeline produces (timestamps, device ids), and `other` for
any value on which `float()` raises `ValueError`/`TypeError`. -/
inductive Val where
  | vnull : Val
  | vint : Int → Val
  | vfloat : Rat → Val
  | vstr : String → Val
  | other : Val
deriving DecidableEq, Repr

/-- `float(x)` for the values above: succeeds on ints and floats, raises
(= `none`) on `None`, on the pipeline's non-numeric strings and on any
other non-coercible value. -/
def pyFloat : Val → Option Rat
  | .vint n => some (n : Rat)
  | .vfloat q => some q
  | _ => none

/-- One entry of the `registers` list of `register_config.yaml`
(config_loader.py).  `view` holds the entry's `ui.view` tags, single
string views already normalised to one-element lists as the loader does. -/
structure RegisterDef where
  name : String
  address : Nat
  dataType : Option String := none
  scale : Option Val := none
  group : Option String := none
  view : List String := []
deriving DecidableEq, Repr

/-- Python dict built by successive insertion, modelled by its lookup
function: a later insertion of the same key overwrites the earlier one. -/
def dictInsert {α β : Type} [DecidableEq α] (d : α → Option β) (k : α) (v : β) :
    α → Option β :=
  fun a => if a = k then some v else d a

/-- `{reg['name']: reg for reg in registers}` (config_loader.py line 31). -/
def registers_by_name (regs : List RegisterDef) : String → Option RegisterDef :=
  regs.foldl (fun d r => dictInsert d r.name r) (fun _ => none)

/-- `{reg['address']: reg for reg in registers}` (config_loader.py line 34). -/
def registers_by_address (regs : List RegisterDef) : Nat → Option RegisterDef :=
  regs.foldl (fun d r => dictInsert d r.address r) (fun _ => none)

/-- `defaultdict(list)` grouping by `group` (config_loader.py lines 37-40):
appends each register carrying a `group` key to its group's list. -/
def registers_by_group (regs : List RegisterDef) : String → List RegisterDef :=
  regs.foldl
    (fun d r => match r.group with
      | some g => fun k => if k = g then d k ++ [r] else d k
      | none => d)
    (fun _ => [])

/-- `defaultdict(list)` grouping by each `ui.view` tag
(config_loader.py lines 43-49). -/
def registers_by_view (regs : List RegisterDef) : String → List RegisterDef :=
  regs.foldl
    (fun d r => fun k => if k ∈ r.view then d k ++ [r] else d k)
    (fun _ => [])

/-- Python `max` over a non-empty list (the loader only calls it when
`registers` is non-empty; the `[]` case is unreachable there). -/
def pyMax : List Nat → Nat
  | [] => 0
  | a :: l => l.foldl Nat.max a

/-- Python `min` over a non-empty list. -/
def pyMin : List Nat → Nat
  | [] => 0
  | a :: l => l.foldl Nat.min a

/-- `max_address = max(addresses) if registers else 0`
(config_loader.py lines 53-57). -/
def max_address (regs : List RegisterDef) : Nat :=
  if regs.isEmpty then 0 else pyMax (regs.map (·.address))

/-- `min_address = min(addresses) if registers else 0`
(config_loader.py lines 54-58). -/
def min_address (regs : List RegisterDef) : Nat :=
  if regs.isEmpty then 0 else pyMin (regs.map (·.address))

/-- `total_register_count = (max_address - min_address + 1) if registers
else 0` (config_loader.py line 63). -/
def total_register_count (regs : List RegisterDef) : Nat :=
  if regs.isEmpty then 0 else max_address regs - min_address regs + 1

/-- The structured dictionary returned by `load_register_config`
(config_loader.py lines 66-77). -/
structure Catalog where
  raw : List RegisterDef
  by_name : String → Option RegisterDef
  by_address : Nat → Option RegisterDef
  by_group : String → List RegisterDef
  by_view : String → List RegisterDef
  maxAddress : Nat
  minAddress : Nat
  totalRegisterCount : Nat
  modbus_ip : Option String
  modbus_port : Option Int

/-- `load_register_config` (config_loader.py): builds the index
structures and derived scalars from the parsed `registers` list and
`modbus` section.  File-existence and empty-file errors happen before
this point; given a parsed register list the construction is total —
in particular no uniqueness of names or addresses is checked. -/
def load_register_config (regs : List RegisterDef)
    (modbus_ip : Option String) (modbus_port : Option Int) : Catalog :=
  { raw := regs
    by_name := registers_by_name regs
    by_address := registers_by_address regs
    by_group := registers_by_group regs
    by_view := registers_by_view regs
    maxAddress := max_address regs
    minAddress := min_address regs
    totalRegisterCount := total_register_count regs
    modbus_ip := modbus_ip
    modbus_port := modbus_port }

/- ------------------------------------------------------------------ -/
/- Device Reader (modbus_client.py).                                  -/
/- ------------------------------------------------------------------ -/

/-- `MAX_READ_COUNT = 64` (modbus_client.py line 28). -/
def MAX_READ_COUNT : Nat := 64

/-- The `(start_address, count)` chunk sequence issued by the while loop
of `read_modbus_data` (modbus_client.py lines 54-79): while the cursor is
at most `hi`, request `count = min(MAX_READ_COUNT, hi - cursor + 1)` words
(breaking if that is not positive, which cannot happen here) and advance
the cursor by `count`. -/
def chunks (lo hi : Nat) : List (Nat × Nat) :=
  if _h : lo ≤ hi then
    if Nat.min MAX_READ_COUNT (hi - lo + 1) ≤ 0 then []
    else (lo, Nat.min MAX_READ_COUNT (hi - lo + 1)) ::
      chunks (lo + Nat.min MAX_READ_COUNT (hi - lo + 1)) hi
  else []
termination_by hi + 1 - lo
decreasing_by
  simp only [MAX_READ_COUNT] at *
  omega

/-- The signed data-type tags recognised by `read_modbus_data`
(modbus_client.py line 92). -/
def signed_types : List String :=
  ["int16", "sint16", "signed", "short", "signed_short", "signed int16"]

/-- Python `str.lower()`: character-wise lowercasing.  (`String.toLower`
computes the same result through byte positions and well-founded
recursion; it is stated structurally here so that concrete instances
evaluate.) -/
def pyLower (s : String) : String := ⟨s.data.map Char.toLower⟩

/-- `data_type and data_type.lower() in signed_types`
(modbus_client.py line 93): a `None` or empty (falsy) tag is not signed. -/
def isSignedType : Option String → Bool
  | none => false
  | some s => decide (s ≠ "") && signed_types.contains (pyLower s)

/-- The per-word reinterpretation of `read_modbus_data` (modbus_client.py
lines 90-104): two's-complement conversion for signed-tagged registers,
raw pass-through for every other (or missing) tag. -/
def processed_value (dataType : Option String) (raw : Nat) : Int :=
  if isSignedType dataType then
    if raw > 32767 then (raw : Int) - 65536 else (raw : Int)
  else (raw : Int)

/-- The value stored in `data_dict` for one catalog entry keyed by
`address` (modbus_client.py lines 85-110): the reinterpreted word when
the address was read, `None` otherwise. -/
def register_value (addr : Nat) (info : RegisterDef)
    (registers_read : Nat → Option Nat) : Option Int :=
  match registers_read addr with
  | some w => some (processed_value info.dataType w)
  | none => none

/-- The mapping loop of `read_modbus_data` (modbus_client.py lines
83-110) over the items of `by_address`, as the list of
`(name, value)` entries it inserts into `data_dict`. -/
def map_registers (by_address : List (Nat × RegisterDef))
    (registers_read : Nat → Option Nat) : List (String × Option Int) :=
  by_address.map fun p => (p.2.name, register_value p.1 p.2 registers_read)

/-- Outcome of one `client.read_holding_registers` call: a device-level
error response (`response.isError()`), an exception raised by the client
library, or a (possibly empty) list of words. -/
inductive ChunkResult where
  | err : ChunkResult
  | exn : ChunkResult
  | ok : List Nat → ChunkResult

/-- The field device as seen through the client: whether `connect()`
succeeds, and the response to each `(start, count)` read request. -/
structure Device where
  connectOk : Bool
  read : Nat → Nat → ChunkResult

/-- `for i, value in enumerate(response.registers):
registers_read[start_address + i] = value` (modbus_client.py lines
73-75). -/
def insert_regs (acc : Nat → Option Nat) (start : Nat) (regs : List Nat) :
    Nat → Option Nat :=
  fun n =>
    if start ≤ n then
      match regs.get? (n - start) with
      | some v => some v
      | none => acc n
    else acc n

/-- The chunked read loop of `read_modbus_data` (modbus_client.py lines
54-79).  An error response or a client exception raises (`Except.error`),
aborting the remaining chunks; an empty word list is tolerated and the
loop continues. -/
def read_loop (dev : Device) (hi : Nat) (acc : Nat → Option Nat)
    (lo : Nat) : Except Unit (Nat → Option Nat) :=
  if _h : lo ≤ hi then
    if Nat.min MAX_READ_COUNT (hi - lo + 1) ≤ 0 then .ok acc
    else
      match dev.read lo (Nat.min MAX_READ_COUNT (hi - lo + 1)) with
      | .err => .error ()
      | .exn => .error ()
      | .ok regs =>
          read_loop dev hi (insert_regs acc lo regs)
            (lo + Nat.min MAX_READ_COUNT (hi - lo + 1))
  else .ok acc
termination_by hi + 1 - lo
decreasing_by
  simp only [MAX_READ_COUNT] at *
  omega

/-- `read_modbus_data` (modbus_client.py lines 35-122): connect, run the
chunked read loop, map words to names — every failure path (connection
failure, device-level error response, client exception) is caught and
degrades to the empty mapping. -/
def read_modbus_data (dev : Device) (by_address : List (Nat × RegisterDef))
    (lo hi : Nat) : List (String × Option Int) :=
  if dev.connectOk then
    match read_loop dev hi (fun _ => none) lo with
    | .ok rr => map_registers by_address rr
    | .error _ => []
  else []

/- ------------------------------------------------------------------ -/
/- Snapshot Publisher and Messaging Client (app.py, mqtt_client.py).  -/
/- ------------------------------------------------------------------ -/

/-- The scaling step of `process_and_upload_sensor_data` (app.py lines
59-78) for one `(name, raw_value)` entry: `None` passes through, a
declared `scale` multiplies after `float()` coercion of both operands,
a coercion failure keeps the raw value, and a missing definition or
missing `scale` passes the value through unchanged. -/
def scale_value (by_name : String → Option RegisterDef) (name : String)
    (v : Val) : Val :=
  match v with
  | .vnull => .vnull
  | _ =>
    match by_name name with
    | some info =>
      match info.scale with
      | some s =>
        match pyFloat v, pyFloat s with
        | some a, some b => .vfloat (a * b)
        | _, _ => v
      | none => v
    | none => v

/-- Values of `data_dict` (ints or `None`) as dynamic values. -/
def ovToVal : Option Int → Val
  | some n => .vint n
  | none => .vnull

/-- The Messaging Client's configuration and connection state
(mqtt_client.py `MQTTUploader.__init__`): the fields the publish and
connect paths branch on. -/
structure Uploader where
  enabled : Bool
  is_connected : Bool
  bulk_topic : String
  base_topic : String
  publish_individual : Bool

/-- The broker as seen by the client: whether the connect handshake
completes within the 10 s bounded wait, and the result code of each
publish by topic. -/
structure MqttEnv where
  handshakeOk : Bool
  publishOk : String → Bool

/-- Network I/O performed by the Messaging Client. -/
inductive NetAction where
  | connectAttempt : NetAction
  | publishMsg : String → NetAction
deriving DecidableEq, Repr

/-- `MQTTUploader.connect` (mqtt_client.py lines 110-177): returns
failure immediately when publishing is disabled, no-op success when
already connected, otherwise attempts the broker handshake and reports
whether it completed within the bounded wait.  The second component is
the network I/O performed. -/
def uploader_connect (u : Uploader) (env : MqttEnv) : Bool × List NetAction :=
  if u.enabled = false then (false, [])
  else if u.is_connected then (true, [])
  else (env.handshakeOk, [NetAction.connectAttempt])

/-- The bulk payload built by `publish_sensor_data` (mqtt_client.py
lines 220-227): every non-null field except `timestamp`, with the
timestamp string folded back in when present.  (The `device_id`
re-assignment on line 227 is a dict no-op: a non-null `device_id`
already survived the comprehension.) -/
def bulk_payload (sensor_data : List (String × Val)) (timestamp_str : String) :
    List (String × Val) :=
  (sensor_data.filter fun p => decide (p.1 ≠ "timestamp") && decide (p.2 ≠ Val.vnull))
    ++ (if sensor_data.any (fun p => p.1 = "timestamp")
        then [("timestamp", Val.vstr timestamp_str)] else [])

/-- `MQTTUploader.publish_sensor_data` (mqtt_client.py lines 186-276):
success without any network I/O when publishing is disabled; otherwise
connect, publish the bulk payload, and optionally publish each non-null
non-timestamp field to its per-sensor topic, succeeding only if every
individual publish succeeds. -/
def publish_sensor_data (u : Uploader) (env : MqttEnv)
    (sensor_data : List (String × Val)) : Bool × List NetAction :=
  if u.enabled = false then (true, [])
  else
    let c := uploader_connect u env
    if c.1 = false then (false, c.2)
    else
      let acts := c.2 ++ [NetAction.publishMsg u.bulk_topic]
      if env.publishOk u.bulk_topic = false then (false, acts)
      else if u.publish_individual then
        let names := (sensor_data.filter fun p =>
          decide (p.1 ≠ "timestamp") && decide (p.2 ≠ Val.vnull)).map (·.1)
        (names.all fun n => env.publishOk (u.base_topic ++ "/sensors/" ++ n),
         acts ++ names.map fun n =>
           NetAction.publishMsg (u.base_topic ++ "/sensors/" ++ n))
      else (true, acts)

/-- `MQTTUploader.publish_status_message` (mqtt_client.py lines
278-314): same enable/connect preconditions as bulk publish, then one
publish to the status topic. -/
def publish_status_message (u : Uploader) (env : MqttEnv) :
    Bool × List NetAction :=
  if u.enabled = false then (true, [])
  else
    let c := uploader_connect u env
    if c.1 = false then (false, c.2)
    else (env.publishOk (u.base_topic ++ "/status"),
      c.2 ++ [NetAction.publishMsg (u.base_topic ++ "/status")])

/- ------------------------------------------------------------------ -/
/- Scheduled pipeline (app.py).                                       -/
/- ------------------------------------------------------------------ -/

/-- `collect_sensor_lock.acquire(blocking=False)` (app.py line 42):
fails immediately (`none`) when the lock is held, acquires otherwise. -/
def try_acquire (lockHeld : Bool) : Option Unit :=
  if lockHeld then none else some ()

/-- Observable behaviour of one `process_and_upload_sensor_data`
invocation: whether the busy warning was logged, whether a device read
happened, the snapshot handed to the Messaging Client (if any), and the
network I/O performed. -/
structure PipelineTrace where
  warnedBusy : Bool
  didRead : Bool
  snapshot : Option (List (String × Val))
  actions : List NetAction

/-- `process_and_upload_sensor_data` (app.py lines 40-95): non-blocking
lock acquisition (skip with a warning when held), device read, early
return on an empty reading, scaling, timestamp/device-id stamping, and
the MQTT upload.  Returns the lock state after the call and the trace.
`raw_data` is the Device Reader's result for this cycle. -/
def process_and_upload_sensor_data (lockHeld : Bool)
    (raw_data : List (String × Val)) (by_name : String → Option RegisterDef)
    (ts device_id : String) (u : Uploader) (env : MqttEnv) :
    Bool × PipelineTrace :=
  match try_acquire lockHeld with
  | none => (lockHeld, ⟨true, false, none, []⟩)
  | some _ =>
    if raw_data.isEmpty then
      (false, ⟨false, true, none, []⟩)
    else
      let processed := raw_data.map fun p => (p.1, scale_value by_name p.1 p.2)
      let snapshot := processed ++
        [("timestamp", Val.vstr ts), ("device_id", Val.vstr device_id)]
      let r := publish_sensor_data u env snapshot
      (false, ⟨false, true, some snapshot, r.2⟩)

/-- Events of the scheduler interleaving model: a timer tick starting an
invocation, and the completion of the currently running invocation. -/
inductive SchedEvent where
  | tick : SchedEvent
  | finish : SchedEvent

/-- Lock state plus the number of currently active pipeline
invocations. -/
structure SchedState where
  lockHeld : Bool
  active : Nat

/-- One scheduler transition: a tick performs the non-blocking acquire
(app.py line 42) and is skipped entirely — not queued — when it fails;
a finish releases the lock (app.py line 95). -/
def sched_step (s : SchedState) : SchedEvent → SchedState
  | .tick =>
    match try_acquire s.lockHeld with
    | none => s
    | some _ => { lockHeld := true, active := s.active + 1 }
  | .finish =>
    if s.active > 0 then { lockHeld := false, active := s.active - 1 } else s

/-- Run the scheduler model from the initial state (lock free, nothing
active). -/
def sched_run (evs : List SchedEvent) : SchedState :=
  evs.foldl sched_step ⟨false, 0⟩


/- ------------------------------------------------------------------ -/
/- Theorems.                                                          -/
/- ------------------------------------------------------------------ -/

/- ------------------------------------------------------------------ -/
/- Helper lemmas about the Python max/min and dict models.            -/
/- ------------------------------------------------------------------ -/

theorem foldl_max_le_iff (l : List Nat) (a b : Nat) :
    l.foldl Nat.max a ≤ b ↔ a ≤ b ∧ ∀ x ∈ l, x ≤ b := by
  induction l generalizing a with
  | nil => simp
  | cons y l ih =>
    simp only [List.foldl_cons, ih, List.mem_cons]
    constructor
    · rintro ⟨h1, h2⟩
      exact ⟨le_trans (Nat.le_max_left _ _) h1,
        fun x hx => hx.elim (fun e => e ▸ le_trans (Nat.le_max_right _ _) h1)
          (fun hl => h2 x hl)⟩
    · rintro ⟨h1, h2⟩
      exact ⟨Nat.max_le.2 ⟨h1, h2 y (Or.inl rfl)⟩, fun x hx => h2 x (Or.inr hx)⟩

theorem foldl_max_mem (l : List Nat) (a : Nat) :
    l.foldl Nat.max a = a ∨ l.foldl Nat.max a ∈ l := by
  induction l generalizing a with
  | nil => simp
  | cons y l ih =>
    simp only [List.foldl_cons, List.mem_cons]
    rcases ih (Nat.max a y) with h | h
    · have e : Nat.max a y = a ∨ Nat.max a y = y := max_choice a y
      rcases e with e | e
      · left; rw [h, e]
      · right; left; rw [h, e]
    · right; right; exact h

theorem le_foldl_min_iff (l : List Nat) (a b : Nat) :
    b ≤ l.foldl Nat.min a ↔ b ≤ a ∧ ∀ x ∈ l, b ≤ x := by
  induction l generalizing a with
  | nil => simp
  | cons y l ih =>
    simp only [List.foldl_cons, ih, List.mem_cons]
    constructor
    · rintro ⟨h1, h2⟩
      exact ⟨le_trans h1 (Nat.min_le_left _ _),
        fun x hx => hx.elim (fun e => e ▸ le_trans h1 (Nat.min_le_right _ _))
          (fun hl => h2 x hl)⟩
    · rintro ⟨h1, h2⟩
      exact ⟨Nat.le_min.2 ⟨h1, h2 y (Or.inl rfl)⟩, fun x hx => h2 x (Or.inr hx)⟩

theorem foldl_min_mem (l : List Nat) (a : Nat) :
    l.foldl Nat.min a = a ∨ l.foldl Nat.min a ∈ l := by
  induction l generalizing a with
  | nil => simp
  | cons y l ih =>
    simp only [List.foldl_cons, List.mem_cons]
    rcases ih (Nat.min a y) with h | h
    · have e : Nat.min a y = a ∨ Nat.min a y = y := min_choice a y
      rcases e with e | e
      · left; rw [h, e]
      · right; left; rw [h, e]
    · right; right; exact h

theorem pyMax_is_max (l : List Nat) (hl : l ≠ []) :
    (∀ x ∈ l, x ≤ pyMax l) ∧ pyMax l ∈ l := by
  match l, hl with
  | a :: l, _ =>
    constructor
    · intro x hx
      have h := (foldl_max_le_iff l a (pyMax (a :: l))).2
      simp only [pyMax] at *
      rcases List.mem_cons.1 hx with e | hm
      · exact e ▸ ((foldl_max_le_iff l a (l.foldl Nat.max a)).1 le_rfl).1
      · exact ((foldl_max_le_iff l a (l.foldl Nat.max a)).1 le_rfl).2 x hm
    · simp only [pyMax]
      rcases foldl_max_mem l a with h | h
      · rw [h]; exact List.mem_cons_self a l
      · exact List.mem_cons_of_mem a h

theorem pyMin_is_min (l : List Nat) (hl : l ≠ []) :
    (∀ x ∈ l, pyMin l ≤ x) ∧ pyMin l ∈ l := by
  match l, hl with
  | a :: l, _ =>
    constructor
    · intro x hx
      simp only [pyMin] at *
      rcases List.mem_cons.1 hx with e | hm
      · exact e ▸ ((le_foldl_min_iff l a (l.foldl Nat.min a)).1 le_rfl).1
      · exact ((le_foldl_min_iff l a (l.foldl Nat.min a)).1 le_rfl).2 x hm
    · simp only [pyMin]
      rcases foldl_min_mem l a with h | h
      · rw [h]; exact List.mem_cons_self a l
      · exact List.mem_cons_of_mem a h


/- Chunking lemmas. -/

theorem chunks_of_gt (lo hi : Nat) (h : hi < lo) : chunks lo hi = [] := by
  rw [chunks]
  simp [Nat.not_le.2 h]

theorem min_count_pos (lo hi : Nat) (_h : lo ≤ hi) :
    1 ≤ Nat.min MAX_READ_COUNT (hi - lo + 1) :=
  Nat.le_min.2 ⟨by simp [MAX_READ_COUNT], by omega⟩

theorem chunks_of_le (lo hi : Nat) (h : lo ≤ hi) :
    chunks lo hi = (lo, Nat.min MAX_READ_COUNT (hi - lo + 1)) ::
      chunks (lo + Nat.min MAX_READ_COUNT (hi - lo + 1)) hi := by
  rw [chunks]
  have h1 := min_count_pos lo hi h
  have h2 : ¬ Nat.min MAX_READ_COUNT (hi - lo + 1) ≤ 0 := by omega
  simp [h, h2]

/-- Induction principle following the cursor of the read loop. -/
theorem chunks_rec (hi : Nat) (motive : Nat → Prop)
    (base : ∀ lo, hi < lo → motive lo)
    (step : ∀ lo, lo ≤ hi →
      motive (lo + Nat.min MAX_READ_COUNT (hi - lo + 1)) → motive lo)
    (lo : Nat) : motive lo := by
  have H : ∀ n lo, hi + 1 - lo ≤ n → motive lo := by
    intro n
    induction n with
    | zero => intro lo h; exact base lo (by omega)
    | succ n ih =>
      intro lo h
      by_cases hle : lo ≤ hi
      · have hmin := min_count_pos lo hi hle
        exact step lo hle (ih _ (by omega))
      · exact base lo (by omega)
  exact H (hi + 1 - lo) lo le_rfl

theorem chunks_flatMap (hi : Nat) : ∀ lo, lo ≤ hi →
    ((chunks lo hi).flatMap fun p => List.range' p.1 p.2) =
      List.range' lo (hi + 1 - lo) := by
  refine chunks_rec hi _ (fun lo h hc => absurd hc (by omega)) ?_
  intro lo hle ih
  have hmin := min_count_pos lo hi hle
  have hmin2 : Nat.min MAX_READ_COUNT (hi - lo + 1) ≤ hi - lo + 1 :=
    Nat.min_le_right _ _
  intro _
  rw [chunks_of_le lo hi hle, List.flatMap_cons]
  by_cases h2 : lo + Nat.min MAX_READ_COUNT (hi - lo + 1) ≤ hi
  · rw [ih h2]
    have := List.range'_append_1 lo (Nat.min MAX_READ_COUNT (hi - lo + 1))
      (hi + 1 - (lo + Nat.min MAX_READ_COUNT (hi - lo + 1)))
    rw [this]
    congr 1
    omega
  · rw [chunks_of_gt _ hi (by omega), List.flatMap_nil, List.append_nil]
    congr 1
    omega

theorem chunks_counts (hi : Nat) : ∀ lo, ∀ p ∈ chunks lo hi,
    1 ≤ p.2 ∧ p.2 ≤ MAX_READ_COUNT ∧
      p.2 = Nat.min MAX_READ_COUNT (hi - p.1 + 1) := by
  refine chunks_rec hi _ ?_ ?_
  · intro lo h p hp
    rw [chunks_of_gt lo hi h] at hp
    cases hp
  · intro lo hle ih p hp
    rw [chunks_of_le lo hi hle] at hp
    rcases List.mem_cons.1 hp with e | hm
    · subst e
      exact ⟨min_count_pos lo hi hle, Nat.min_le_left _ _, rfl⟩
    · exact ih p hm

theorem chunks_head (lo hi : Nat) (h : lo ≤ hi) :
    (chunks lo hi).head? = some (lo, Nat.min MAX_READ_COUNT (hi - lo + 1)) := by
  rw [chunks_of_le lo hi h]
  rfl

theorem chunks_chain (hi : Nat) : ∀ lo,
    List.Chain' (fun p q : Nat × Nat => q.1 = p.1 + p.2) (chunks lo hi) := by
  refine chunks_rec hi _ ?_ ?_
  · intro lo h
    rw [chunks_of_gt lo hi h]
    exact List.chain'_nil
  · intro lo hle ih
    rw [chunks_of_le lo hi hle]
    refine List.chain'_cons'.2 ⟨?_, ih⟩
    intro q hq
    by_cases h2 : lo + Nat.min MAX_READ_COUNT (hi - lo + 1) ≤ hi
    · rw [chunks_head _ hi h2] at hq
      cases hq
      rfl
    · rw [chunks_of_gt _ hi (by omega)] at hq
      cases hq

theorem chunks_getLast (hi : Nat) : ∀ lo, lo ≤ hi →
    ∃ q, (chunks lo hi).getLast? = some q ∧ q.1 + q.2 - 1 = hi := by
  refine chunks_rec hi _ (fun lo h hc => absurd hc (by omega)) ?_
  intro lo hle ih _
  have hmin := min_count_pos lo hi hle
  have hmin2 : Nat.min MAX_READ_COUNT (hi - lo + 1) ≤ hi - lo + 1 :=
    Nat.min_le_right _ _
  rw [chunks_of_le lo hi hle]
  by_cases h2 : lo + Nat.min MAX_READ_COUNT (hi - lo + 1) ≤ hi
  · obtain ⟨q, hq, hqe⟩ := ih h2
    refine ⟨q, ?_, hqe⟩
    rw [chunks_of_le _ hi h2] at hq ⊢
    rw [List.getLast?_cons_cons]
    exact hq
  · rw [chunks_of_gt _ hi (by omega)]
    exact ⟨(lo, Nat.min MAX_READ_COUNT (hi - lo + 1)), rfl, by omega⟩

/- Python-dict fold lemma shared by the index-shadowing results. -/

theorem foldl_dictInsert_skip {α : Type} [DecidableEq α] (key : RegisterDef → α) :
    ∀ (l : List RegisterDef) (d : α → Option RegisterDef) (a : α),
      (∀ q ∈ l, key q ≠ a) →
      l.foldl (fun d r => dictInsert d (key r) r) d a = d a := by
  intro l
  induction l with
  | nil => intro d a _; rfl
  | cons q l ih =>
    intro d a h
    simp only [List.foldl_cons]
    rw [ih (dictInsert d (key q) q) a (fun p hp => h p (List.mem_cons_of_mem q hp))]
    have hne := h q (List.mem_cons_self q l)
    simp [dictInsert, Ne.symm hne]

/-- Claim C1: for every span with `minAddress ≤ maxAddress`, the
device-read loop issues a chunk sequence that covers every address in
`[minAddress, maxAddress]` exactly once (the concatenation of the chunk
ranges is exactly the address range, with no repetition), the first chunk
starts at the cursor `minAddress`, every chunk's count is
`min(64, maxAddress - cursor + 1)`, hence at least 1 and at most 64, the
cursor advances by exactly the count (each chunk starts where the
previous one ended), and the final chunk's last address equals
`maxAddress`. -/
theorem claim_C1 (lo hi : Nat) (h : lo ≤ hi) :
    ((chunks lo hi).flatMap fun p => List.range' p.1 p.2) =
        List.range' lo (hi + 1 - lo)
    ∧ (∀ p ∈ chunks lo hi, 1 ≤ p.2 ∧ p.2 ≤ 64 ∧
        p.2 = Nat.min MAX_READ_COUNT (hi - p.1 + 1))
    ∧ (chunks lo hi).head? = some (lo, Nat.min MAX_READ_COUNT (hi - lo + 1))
    ∧ List.Chain' (fun p q : Nat × Nat => q.1 = p.1 + p.2) (chunks lo hi)
    ∧ (∃ q, (chunks lo hi).getLast? = some q ∧ q.1 + q.2 - 1 = hi) :=
  ⟨chunks_flatMap hi lo h, fun p hp => chunks_counts hi lo p hp,
    chunks_head lo hi h, chunks_chain hi lo, chunks_getLast hi lo h⟩

theorem claim_C1_witness :
    28 ≤ 148 ∧
    (((chunks 28 148).flatMap fun p => List.range' p.1 p.2) =
        List.range' 28 (148 + 1 - 28)
      ∧ (∀ p ∈ chunks 28 148, 1 ≤ p.2 ∧ p.2 ≤ 64 ∧
          p.2 = Nat.min MAX_READ_COUNT (148 - p.1 + 1))
      ∧ (chunks 28 148).head? = some (28, Nat.min MAX_READ_COUNT (148 - 28 + 1))
      ∧ List.Chain' (fun p q : Nat × Nat => q.1 = p.1 + p.2) (chunks 28 148)
      ∧ (∃ q, (chunks 28 148).getLast? = some q ∧ q.1 + q.2 - 1 = 148)) :=
  ⟨by decide, claim_C1 28 148 (by decide)⟩

/-- Claim C5: for every non-empty register list the catalog's
`min_address` is the minimum of all defined addresses, `max_address` the
maximum (so `min_address ≤ every defined address ≤ max_address`), and
`total_register_count = max_address - min_address + 1`; for an empty
register list all three are 0. -/
theorem claim_C5 (regs : List RegisterDef) (ip : Option String)
    (port : Option Int) :
    (regs ≠ [] →
      (∀ r ∈ regs,
        (load_register_config regs ip port).minAddress ≤ r.address ∧
        r.address ≤ (load_register_config regs ip port).maxAddress)
      ∧ (∃ r ∈ regs, r.address = (load_register_config regs ip port).minAddress)
      ∧ (∃ r ∈ regs, r.address = (load_register_config regs ip port).maxAddress)
      ∧ (load_register_config regs ip port).totalRegisterCount =
          (load_register_config regs ip port).maxAddress -
            (load_register_config regs ip port).minAddress + 1)
    ∧ (regs = [] →
      (load_register_config regs ip port).minAddress = 0 ∧
      (load_register_config regs ip port).maxAddress = 0 ∧
      (load_register_config regs ip port).totalRegisterCount = 0) := by
  constructor
  · intro hne
    have hmape : regs.map (·.address) ≠ [] := by
      simpa using hne
    have hmax := pyMax_is_max (regs.map (·.address)) hmape
    have hmin := pyMin_is_min (regs.map (·.address)) hmape
    have hne' : regs.isEmpty = false := by
      simpa [List.isEmpty_iff] using hne
    refine ⟨?_, ?_, ?_, ?_⟩
    · intro r hr
      constructor
      · simpa [load_register_config, min_address, hne'] using
          hmin.1 r.address (List.mem_map_of_mem _ hr)
      · simpa [load_register_config, max_address, hne'] using
          hmax.1 r.address (List.mem_map_of_mem _ hr)
    · obtain ⟨r, hr, he⟩ := List.mem_map.1 hmin.2
      exact ⟨r, hr, by simp [load_register_config, min_address, hne', he]⟩
    · obtain ⟨r, hr, he⟩ := List.mem_map.1 hmax.2
      exact ⟨r, hr, by simp [load_register_config, max_address, hne', he]⟩
    · simp [load_register_config, total_register_count, hne']
  · intro he
    subst he
    simp [load_register_config, min_address, max_address, total_register_count]

theorem claim_C5_witness :
    ([{name := "A", address := 30}, {name := "B", address := 28},
      {name := "C", address := 45}] : List RegisterDef) ≠ [] ∧
    ((∀ r ∈ ([{name := "A", address := 30}, {name := "B", address := 28},
        {name := "C", address := 45}] : List RegisterDef),
      (load_register_config [{name := "A", address := 30},
        {name := "B", address := 28}, {name := "C", address := 45}]
          none none).minAddress ≤ r.address ∧
      r.address ≤ (load_register_config [{name := "A", address := 30},
        {name := "B", address := 28}, {name := "C", address := 45}]
          none none).maxAddress)
    ∧ (∃ r ∈ ([{name := "A", address := 30}, {name := "B", address := 28},
        {name := "C", address := 45}] : List RegisterDef),
        r.address = (load_register_config [{name := "A", address := 30},
          {name := "B", address := 28}, {name := "C", address := 45}]
            none none).minAddress)
    ∧ (∃ r ∈ ([{name := "A", address := 30}, {name := "B", address := 28},
        {name := "C", address := 45}] : List RegisterDef),
        r.address = (load_register_config [{name := "A", address := 30},
          {name := "B", address := 28}, {name := "C", address := 45}]
            none none).maxAddress)
    ∧ (load_register_config [{name := "A", address := 30},
        {name := "B", address := 28}, {name := "C", address := 45}]
          none none).totalRegisterCount =
        (load_register_config [{name := "A", address := 30},
          {name := "B", address := 28}, {name := "C", address := 45}]
            none none).maxAddress -
          (load_register_config [{name := "A", address := 30},
            {name := "B", address := 28}, {name := "C", address := 45}]
              none none).minAddress + 1) :=
  ⟨by decide,
    (claim_C5 [{name := "A", address := 30}, {name := "B", address := 28},
      {name := "C", address := 45}] none none).1 (by decide)⟩

/-- Claim C10: catalog load does not enforce address uniqueness — for a
register list containing two definitions with the same address, the load
succeeds and the address index maps that address to whichever definition
appears later in the list, silently shadowing the earlier one; likewise
for duplicate names in the name index.  (Stated generally: the last
definition of the list carrying a given address or name wins, whatever
duplicates appear before it.) -/
theorem claim_C10 (pre post : List RegisterDef) (r : RegisterDef)
    (ip : Option String) (port : Option Int) :
    ((∀ q ∈ post, q.address ≠ r.address) →
      (load_register_config (pre ++ r :: post) ip port).by_address r.address
        = some r)
    ∧ ((∀ q ∈ post, q.name ≠ r.name) →
      (load_register_config (pre ++ r :: post) ip port).by_name r.name
        = some r) := by
  constructor
  · intro h
    show registers_by_address (pre ++ r :: post) r.address = some r
    unfold registers_by_address
    rw [List.foldl_append, List.foldl_cons]
    have hs : (post.foldl (fun d q => dictInsert d q.address q)
        (dictInsert (pre.foldl (fun d q => dictInsert d q.address q)
          (fun _ => none)) r.address r)) r.address
        = (dictInsert (pre.foldl (fun d q => dictInsert d q.address q)
          (fun _ => none)) r.address r) r.address :=
      foldl_dictInsert_skip (fun x => x.address) post _ r.address h
    rw [hs]
    simp [dictInsert]
  · intro h
    show registers_by_name (pre ++ r :: post) r.name = some r
    unfold registers_by_name
    rw [List.foldl_append, List.foldl_cons]
    have hs : (post.foldl (fun d q => dictInsert d q.name q)
        (dictInsert (pre.foldl (fun d q => dictInsert d q.name q)
          (fun _ => none)) r.name r)) r.name
        = (dictInsert (pre.foldl (fun d q => dictInsert d q.name q)
          (fun _ => none)) r.name r) r.name :=
      foldl_dictInsert_skip (fun x => x.name) post _ r.name h
    rw [hs]
    simp [dictInsert]

theorem claim_C10_witness :
    (∀ q ∈ ([] : List RegisterDef),
      q.address ≠ ({name := "X", address := 5, dataType := some "int16"} :
        RegisterDef).address) ∧
    (∀ q ∈ ([] : List RegisterDef),
      q.name ≠ ({name := "X", address := 5, dataType := some "int16"} :
        RegisterDef).name) ∧
    (load_register_config
      [{name := "X", address := 5},
       {name := "X", address := 5, dataType := some "int16"}]
      none none).by_address 5 =
        some {name := "X", address := 5, dataType := some "int16"} ∧
    (load_register_config
      [{name := "X", address := 5},
       {name := "X", address := 5, dataType := some "int16"}]
      none none).by_name "X" =
        some {name := "X", address := 5, dataType := some "int16"} :=
  ⟨by simp, by simp,
    (claim_C10 [{name := "X", address := 5}] []
      {name := "X", address := 5, dataType := some "int16"} none none).1
      (by simp),
    (claim_C10 [{name := "X", address := 5}] []
      {name := "X", address := 5, dataType := some "int16"} none none).2
      (by simp)⟩

/-- Claim C2: after the chunks are collected, for every register
definition in the catalog: if its address is present in the raw-result
mapping its value is the raw 16-bit word reinterpreted per `dataType` —
for a signed-tagged register the raw word `w` maps to `w` when
`w ≤ 32767` and to `w - 65536` otherwise, so the result always lies in
`[-32768, 32767]`; for any other (or missing) type tag the raw word
passes through unchanged; if its address is absent the register's value
is null, and the mapping loop still emits an entry for every definition
(the cycle is not aborted). -/
theorem claim_C2 (addr : Nat) (info : RegisterDef) (rr : Nat → Option Nat)
    (ba : List (Nat × RegisterDef)) :
    (∀ w, rr addr = some w → w < 65536 →
      register_value addr info rr = some (processed_value info.dataType w)
      ∧ (isSignedType info.dataType = true →
          processed_value info.dataType w =
            (if w ≤ 32767 then (w : Int) else (w : Int) - 65536)
          ∧ -32768 ≤ processed_value info.dataType w
          ∧ processed_value info.dataType w ≤ 32767)
      ∧ (isSignedType info.dataType = false →
          processed_value info.dataType w = (w : Int)))
    ∧ (rr addr = none → register_value addr info rr = none)
    ∧ ((addr, info) ∈ ba →
        (info.name, register_value addr info rr) ∈ map_registers ba rr)
    ∧ (map_registers ba rr).length = ba.length := by
  refine ⟨?_, ?_, ?_, ?_⟩
  · intro w hw hlt
    refine ⟨by simp [register_value, hw], ?_, ?_⟩
    · intro hs
      have he : processed_value info.dataType w =
          if w > 32767 then (w : Int) - 65536 else (w : Int) := by
        simp [processed_value, hs]
      rw [he]
      refine ⟨?_, ?_, ?_⟩
      · split_ifs <;> omega
      · split_ifs <;> omega
      · split_ifs <;> omega
    · intro hs
      simp [processed_value, hs]
  · intro hw
    simp [register_value, hw]
  · intro hm
    exact List.mem_map_of_mem _ hm
  · simp [map_registers]

theorem claim_C2_witness :
    (fun a => if a = 10 then some (65535 : Nat) else none) 10 = some 65535 ∧
    65535 < 65536 ∧
    register_value 10 {name := "A", address := 10, dataType := some "int16"}
      (fun a => if a = 10 then some (65535 : Nat) else none) =
        some (processed_value (some "int16") 65535) ∧
    processed_value (some "int16") 65535 = -1 ∧
    register_value 11 {name := "A", address := 10, dataType := some "int16"}
      (fun _ => (none : Option Nat)) = none :=
  ⟨rfl, by decide,
    ((claim_C2 10 {name := "A", address := 10, dataType := some "int16"}
      (fun a => if a = 10 then some (65535 : Nat) else none) []).1
        65535 rfl (by decide)).1,
    by decide,
    (claim_C2 11 {name := "A", address := 10, dataType := some "int16"}
      (fun _ => (none : Option Nat)) []).2.1 rfl⟩

/-- Claim C3: the Device Reader never raises to its caller — if the
device connection fails, `read_modbus_data` returns the empty mapping;
a chunk read that reports a device-level error (or a client exception)
makes the read loop abort with an error at that chunk, and an aborted
loop again yields the empty mapping; and in every case the result is
either the empty mapping or the mapping of a successfully completed
loop. -/
theorem claim_C3 (dev : Device) (ba : List (Nat × RegisterDef))
    (lo hi : Nat) :
    (dev.connectOk = false → read_modbus_data dev ba lo hi = [])
    ∧ (∀ acc cur, cur ≤ hi →
        (dev.read cur (Nat.min MAX_READ_COUNT (hi - cur + 1)) =
            ChunkResult.err ∨
         dev.read cur (Nat.min MAX_READ_COUNT (hi - cur + 1)) =
            ChunkResult.exn) →
        read_loop dev hi acc cur = Except.error ())
    ∧ (read_loop dev hi (fun _ => none) lo = Except.error () →
        read_modbus_data dev ba lo hi = [])
    ∧ (read_modbus_data dev ba lo hi = [] ∨
       ∃ rr, read_loop dev hi (fun _ => none) lo = Except.ok rr ∧
         read_modbus_data dev ba lo hi = map_registers ba rr) := by
  refine ⟨?_, ?_, ?_, ?_⟩
  · intro h
    simp [read_modbus_data, h]
  · intro acc cur hc herr
    rw [read_loop]
    have h1 := min_count_pos cur hi hc
    have h2 : ¬ Nat.min MAX_READ_COUNT (hi - cur + 1) ≤ 0 := by omega
    rcases herr with he | he <;> simp [hc, h2, he]
  · intro h
    unfold read_modbus_data
    rw [h]
    by_cases hc : dev.connectOk <;> simp [hc]
  · by_cases hc : dev.connectOk
    · cases hres : read_loop dev hi (fun _ => none) lo with
      | error e =>
        left
        simp [read_modbus_data, hc, hres]
      | ok rr =>
        right
        exact ⟨rr, rfl, by simp [read_modbus_data, hc, hres]⟩
    · left
      simp [read_modbus_data, Bool.eq_false_iff.2 hc]

def devConnFail : Device :=
  { connectOk := false, read := fun _ _ => ChunkResult.ok [] }

def devErr : Device :=
  { connectOk := true, read := fun _ _ => ChunkResult.err }

theorem claim_C3_witness :
    devConnFail.connectOk = false ∧
    read_modbus_data devConnFail [] 0 5 = [] ∧
    (0 ≤ 5 ∧
      devErr.read 0 (Nat.min MAX_READ_COUNT (5 - 0 + 1)) = ChunkResult.err) ∧
    read_loop devErr 5 (fun _ => none) 0 = Except.error () ∧
    read_modbus_data devErr [(3, {name := "A", address := 3})] 0 5 = [] :=
  ⟨rfl,
    (claim_C3 devConnFail [] 0 5).1 rfl,
    ⟨by decide, rfl⟩,
    (claim_C3 devErr [] 0 5).2.1 (fun _ => none) 0 (by decide) (Or.inl rfl),
    (claim_C3 devErr [(3, {name := "A", address := 3})] 0 5).2.2.1
      ((claim_C3 devErr [(3, {name := "A", address := 3})] 0 5).2.1
        (fun _ => none) 0 (by decide) (Or.inl rfl))⟩


/- Scaling-step lemma: the non-null branch of the scaling loop. -/

theorem scale_value_not_null (by_name : String → Option RegisterDef)
    (name : String) (v : Val) (h : v ≠ Val.vnull) :
    scale_value by_name name v =
      match by_name name with
      | some info =>
        match info.scale with
        | some s =>
          match pyFloat v, pyFloat s with
          | some a, some b => Val.vfloat (a * b)
          | _, _ => v
        | none => v
      | none => v := by
  cases v with
  | vnull => exact absurd rfl h
  | vint n => rfl
  | vfloat q => rfl
  | vstr s => rfl
  | other => rfl

/-- Register `A` of the C4 scenario: address 10, signed 16-bit tag. -/
def regA : RegisterDef := { name := "A", address := 10, dataType := some "int16" }

/-- Register `B` of the C4 scenario: address 12, unsigned tag, scale 0.1. -/
def regB : RegisterDef := { name := "B", address := 12, dataType := some "uint16", scale := some (Val.vfloat (1/10)) }

/-- A register whose declared scale cannot be coerced by `float()`. -/
def regC : RegisterDef := { name := "C", address := 1, scale := some Val.other }

/-- Raw reads of the C4 scenario: `{10: 65535, 12: 50}`. -/
def scenario_rr : Nat → Option Nat :=
  fun a => if a = 10 then some 65535 else if a = 12 then some 50 else none

/-- Claim C4: in the scaling step, a null value passes through as null;
with a declared scale the published value is `float(value) * float(scale)`
(floats modelled exactly); if the numeric coercion fails on either
operand the unscaled raw value is kept (the field is not dropped); with
no declared scale (or no definition for the name) the value passes
through unchanged; and the scenario — catalog `{A: addr 10
signed-tagged}, {B: addr 12 unsigned, scale 0.1}` with raw reads
`{10: 65535, 12: 50}` — yields `{A: -1, B: 5.0}`. -/
theorem claim_C4 (by_name : String → Option RegisterDef) (name : String)
    (v : Val) (info : RegisterDef) (s : Val) :
    (scale_value by_name name Val.vnull = Val.vnull)
    ∧ (v ≠ Val.vnull → by_name name = some info → info.scale = some s →
        ∀ a b, pyFloat v = some a → pyFloat s = some b →
          scale_value by_name name v = Val.vfloat (a * b))
    ∧ (v ≠ Val.vnull → by_name name = some info → info.scale = some s →
        (pyFloat v = none ∨ pyFloat s = none) →
        scale_value by_name name v = v)
    ∧ (v ≠ Val.vnull → by_name name = some info → info.scale = none →
        scale_value by_name name v = v)
    ∧ (v ≠ Val.vnull → by_name name = none →
        scale_value by_name name v = v)
    ∧ ((map_registers [(10, regA), (12, regB)] scenario_rr).map fun p =>
        (p.1, scale_value (load_register_config [regA, regB] none none).by_name
          p.1 (ovToVal p.2)))
      = [("A", Val.vint (-1)), ("B", Val.vfloat 5)] := by
  refine ⟨rfl, ?_, ?_, ?_, ?_, ?_⟩
  · intro hv hb hs a b ha hbf
    rw [scale_value_not_null by_name name v hv]
    simp only [hb, hs, ha, hbf]
  · intro hv hb hs hf
    rw [scale_value_not_null by_name name v hv]
    rcases hf with hf | hf
    · simp only [hb, hs, hf]
    · cases hpv : pyFloat v <;> simp only [hb, hs, hf, hpv]
  · intro hv hb hs
    rw [scale_value_not_null by_name name v hv]
    simp only [hb, hs]
  · intro hv hb
    rw [scale_value_not_null by_name name v hv]
    simp only [hb]
  · have hreader : map_registers [(10, regA), (12, regB)] scenario_rr =
        [("A", some (-1)), ("B", some 50)] := by decide
    have hA : scale_value
        (load_register_config [regA, regB] none none).by_name "A"
        (Val.vint (-1)) = Val.vint (-1) := rfl
    have hB : scale_value
        (load_register_config [regA, regB] none none).by_name "B"
        (Val.vint 50) = Val.vfloat (((50 : Int) : Rat) * (1/10)) := rfl
    rw [hreader]
    simp only [List.map_cons, List.map_nil, ovToVal]
    rw [hA, hB]
    norm_num

theorem claim_C4_witness :
    (Val.vint 50 ≠ Val.vnull ∧
      (fun _ => some regB : String → Option RegisterDef) "B" = some regB ∧
      regB.scale = some (Val.vfloat (1/10)) ∧
      pyFloat (Val.vint 50) = some ((50 : Int) : Rat) ∧
      pyFloat (Val.vfloat (1/10)) = some (1/10) ∧
      scale_value (fun _ => some regB) "B" (Val.vint 50) =
        Val.vfloat (((50 : Int) : Rat) * (1/10))) ∧
    (Val.vint 3 ≠ Val.vnull ∧ regC.scale = some Val.other ∧
      pyFloat Val.other = none ∧
      scale_value (fun _ => some regC) "C" (Val.vint 3) = Val.vint 3) ∧
    (Val.vint (-1) ≠ Val.vnull ∧ regA.scale = none ∧
      scale_value (fun _ => some regA) "A" (Val.vint (-1)) = Val.vint (-1)) ∧
    (Val.vint 7 ≠ Val.vnull ∧
      scale_value (fun _ => none) "Z" (Val.vint 7) = Val.vint 7) :=
  ⟨⟨by decide, rfl, rfl, rfl, rfl,
      (claim_C4 (fun _ => some regB) "B" (Val.vint 50) regB
        (Val.vfloat (1/10))).2.1 (by decide) rfl rfl ((50 : Int) : Rat)
        (1/10) rfl rfl⟩,
    ⟨by decide, rfl, rfl,
      (claim_C4 (fun _ => some regC) "C" (Val.vint 3) regC
        Val.other).2.2.1 (by decide) rfl rfl (Or.inr rfl)⟩,
    ⟨by decide, rfl,
      (claim_C4 (fun _ => some regA) "A" (Val.vint (-1)) regA
        Val.other).2.2.2.1 (by decide) rfl rfl⟩,
    ⟨by decide,
      (claim_C4 (fun _ => none) "Z" (Val.vint 7)
        { name := "Z", address := 0 } Val.other).2.2.2.2.1
        (by decide) rfl⟩⟩

/- Concrete client configurations used by the closed instances below. -/

/-- An uploader with publishing administratively disabled. -/
def uDis : Uploader := { enabled := false, is_connected := false, bulk_topic := "vflow/data/bulk", base_topic := "vflow", publish_individual := false }

/-- An enabled, not-yet-connected uploader. -/
def uEn : Uploader := { enabled := true, is_connected := false, bulk_topic := "vflow/data/bulk", base_topic := "vflow", publish_individual := false }

/-- A broker that acknowledges the handshake and every publish. -/
def envOk : MqttEnv := { handshakeOk := true, publishOk := fun _ => true }

/-- Claim C6: when MQTT publishing is administratively disabled via
configuration, the bulk-publish operation returns success (`true`)
without attempting any network I/O, while `connect` returns failure
(`false`) without attempting network I/O. -/
theorem claim_C6 (u : Uploader) (env : MqttEnv)
    (data : List (String × Val)) :
    u.enabled = false →
      publish_sensor_data u env data = (true, []) ∧
      uploader_connect u env = (false, []) := by
  intro h
  constructor
  · simp [publish_sensor_data, h]
  · simp [uploader_connect, h]

theorem claim_C6_witness :
    uDis.enabled = false ∧
    publish_sensor_data uDis envOk [("A", Val.vint 1)] = (true, []) ∧
    uploader_connect uDis envOk = (false, []) :=
  ⟨rfl, (claim_C6 uDis envOk [("A", Val.vint 1)] rfl).1,
    (claim_C6 uDis envOk [("A", Val.vint 1)] rfl).2⟩

/- Scheduler mutual-exclusion invariant. -/

def sched_inv (s : SchedState) : Prop :=
  s.active ≤ 1 ∧ (s.lockHeld = true ↔ s.active = 1)

theorem sched_step_tick_held (s : SchedState) (hl : s.lockHeld = true) :
    sched_step s SchedEvent.tick = s := by
  simp [sched_step, try_acquire, hl]

theorem sched_step_tick_free (s : SchedState) (hl : s.lockHeld = false) :
    sched_step s SchedEvent.tick =
      { lockHeld := true, active := s.active + 1 } := by
  simp [sched_step, try_acquire, hl]

theorem sched_step_finish_pos (s : SchedState) (ha : 0 < s.active) :
    sched_step s SchedEvent.finish =
      { lockHeld := false, active := s.active - 1 } := by
  simp [sched_step, ha]

theorem sched_step_finish_zero (s : SchedState) (ha : s.active = 0) :
    sched_step s SchedEvent.finish = s := by
  simp [sched_step, ha]

theorem sched_step_inv (s : SchedState) (e : SchedEvent)
    (h : sched_inv s) : sched_inv (sched_step s e) := by
  rcases h with ⟨h1, h2⟩
  cases e with
  | tick =>
    by_cases hl : s.lockHeld = true
    · rw [sched_step_tick_held s hl]
      exact ⟨h1, h2⟩
    · have hl2 : s.lockHeld = false := by simpa using hl
      rw [sched_step_tick_free s hl2]
      have ha : s.active = 0 := by
        by_contra hne
        have h1' : s.active = 1 := by omega
        exact absurd ((h2.2 h1').symm.trans hl2) (by decide)
      exact ⟨show s.active + 1 ≤ 1 by omega, by simp [ha]⟩
  | finish =>
    rcases Nat.eq_zero_or_pos s.active with ha | ha
    · rw [sched_step_finish_zero s ha]
      exact ⟨h1, h2⟩
    · rw [sched_step_finish_pos s ha]
      have h1' : s.active = 1 := by omega
      exact ⟨show s.active - 1 ≤ 1 by omega, by simp [h1']⟩

theorem sched_foldl_inv (evs : List SchedEvent) :
    ∀ s, sched_inv s → sched_inv (evs.foldl sched_step s) := by
  induction evs with
  | nil => intro s h; exact h
  | cons e evs ih => intro s h; exact ih _ (sched_step_inv s e h)

/-- Claim C7: at most one pipeline invocation is active at any time —
an invocation that finds the lock held (the non-blocking acquisition
fails) is skipped entirely: it performs no device read and no publish,
logs the busy warning, leaves the lock untouched and is neither queued
nor retried; and in the scheduler interleaving model (ticks performing
the non-blocking acquire, finishes releasing the lock) the number of
simultaneously active invocations never exceeds one. -/
theorem claim_C7 (raw_data : List (String × Val))
    (by_name : String → Option RegisterDef) (ts device_id : String)
    (u : Uploader) (env : MqttEnv) (evs : List SchedEvent) :
    (process_and_upload_sensor_data true raw_data by_name ts device_id u env
      = (true, { warnedBusy := true, didRead := false, snapshot := none,
                 actions := [] }))
    ∧ (sched_run evs).active ≤ 1 := by
  constructor
  · rfl
  · exact (sched_foldl_inv evs { lockHeld := false, active := 0 }
      ⟨Nat.zero_le 1, by simp⟩).1

theorem claim_C7_witness :
    process_and_upload_sensor_data true [("A", Val.vint 1)]
      (fun _ => none) "t" "d" uEn envOk
      = (true, { warnedBusy := true, didRead := false, snapshot := none,
                 actions := [] }) ∧
    (sched_run [SchedEvent.tick, SchedEvent.tick, SchedEvent.finish,
      SchedEvent.tick]).active ≤ 1 :=
  ⟨(claim_C7 [("A", Val.vint 1)] (fun _ => none) "t" "d" uEn envOk
      [SchedEvent.tick]).1,
    (claim_C7 [("A", Val.vint 1)] (fun _ => none) "t" "d" uEn envOk
      [SchedEvent.tick, SchedEvent.tick, SchedEvent.finish,
        SchedEvent.tick]).2⟩

/-- Claim C9: whenever the Device Reader returns an empty mapping, the
pipeline run stops before building a snapshot or invoking the Messaging
Client at all: the trace carries no snapshot and no network action — no
bulk, per-register, or status publish that cycle. -/
theorem claim_C9 (raw_data : List (String × Val))
    (by_name : String → Option RegisterDef) (ts device_id : String)
    (u : Uploader) (env : MqttEnv) :
    raw_data = [] →
      process_and_upload_sensor_data false raw_data by_name ts device_id u env
        = (false, { warnedBusy := false, didRead := true, snapshot := none,
                    actions := [] }) := by
  intro h
  subst h
  rfl

theorem claim_C9_witness :
    (([] : List (String × Val)) = []) ∧
    process_and_upload_sensor_data false [] (fun _ => none) "t" "d" uEn envOk
      = (false, { warnedBusy := false, didRead := true, snapshot := none,
                  actions := [] }) :=
  ⟨rfl, claim_C9 [] (fun _ => none) "t" "d" uEn envOk rfl⟩

end VFlow
